import Mathlib

/-!
Verification of the link-categorization and CSV merge pipeline of the
mev.fyi repository: `src/utils.py`, `src/get_research_paper_details.py`
and `src/populate_csv_files/get_article_content/get_article_content.py`
are shallowly embedded below and the spec's claims are settled against
the embedding.
-/

namespace MevFyi

/-! ## String helpers

`subAt needle hay` models testing the needle against the start of the
haystack; `hasSub` models Python's `needle in hay` substring test. -/

def subAt : List Char → List Char → Bool
  | [], _ => true
  | _ :: _, [] => false
  | a :: as, b :: bs => a == b && subAt as bs

def hasSub (needle : List Char) : List Char → Bool
  | [] => subAt needle []
  | h :: t => subAt needle (h :: t) || hasSub needle t

/-- Python `sub in s`. -/
def strContains (s sub : String) : Bool :=
  hasSub sub.toList s.toList

/-- ASCII lower-casing of one character, as applied by `str.lower` and
`re.IGNORECASE` to the URLs and patterns of this code base. -/
def lowerChar : Char → Char
  | 'A' => 'a' | 'B' => 'b' | 'C' => 'c' | 'D' => 'd' | 'E' => 'e'
  | 'F' => 'f' | 'G' => 'g' | 'H' => 'h' | 'I' => 'i' | 'J' => 'j'
  | 'K' => 'k' | 'L' => 'l' | 'M' => 'm' | 'N' => 'n' | 'O' => 'o'
  | 'P' => 'p' | 'Q' => 'q' | 'R' => 'r' | 'S' => 's' | 'T' => 't'
  | 'U' => 'u' | 'V' => 'v' | 'W' => 'w' | 'X' => 'x' | 'Y' => 'y'
  | 'Z' => 'z' | c => c

def lowerL (s : String) : List Char :=
  s.toList.map lowerChar

/-- `re.match(fr'^\x7bre.escape(domain)\x7d', url, re.IGNORECASE)`:
case-insensitive literal match anchored at the start of `url`. -/
def ciStartsWith (url domain : String) : Bool :=
  subAt (lowerL domain) (lowerL url)

/-- Python `s.split(sep)` for a one-character separator. -/
def splitOnChar (sep : Char) : List Char → List (List Char)
  | [] => [[]]
  | c :: t =>
    if c = sep then [] :: splitOnChar sep t
    else
      match splitOnChar sep t with
      | g :: gs => (c :: g) :: gs
      | [] => [[c]]

/-- Python `s.split('/')`. -/
def splitSlash (l : List Char) : List (List Char) :=
  splitOnChar '/' l

/-- Python `'/'.join(groups)`. -/
def joinSlash : List (List Char) → List Char
  | [] => []
  | [g] => g
  | g :: gs => g ++ '/' :: joinSlash gs

/-! ## CSV Store / merge (second `parse_and_categorize_links`, utils.py)

`pd.concat([existing_df, new_df])` followed by
`drop_duplicates(subset=['paper'], keep='first')`: a row is kept iff its
key value has not occurred in an earlier row. -/

structure Row where
  paper : String
  referrer : String
deriving DecidableEq, Repr

def dedupByKeyAux (key : α → String) (seen : List String) : List α → List α
  | [] => []
  | r :: rs =>
    if key r ∈ seen then dedupByKeyAux key seen rs
    else r :: dedupByKeyAux key (key r :: seen) rs

/-- `drop_duplicates(subset=[key], keep='first')`. -/
def dedupByKey (key : α → String) (l : List α) : List α :=
  dedupByKeyAux key [] l

/-- The merge step of `parse_and_categorize_links`: existing rows are
concatenated before the new rows, then duplicates by the `paper` column
are dropped keeping the first occurrence. -/
def upsert (existing new : List Row) : List Row :=
  dedupByKey (·.paper) (existing ++ new)

def keysOf (l : List Row) : List String := l.map (·.paper)

/-- One bucket's write step: the code only touches the file when
`new_df` is non-empty (`if not new_df.empty`). -/
def bucketStep (mask : Row → Bool) (input : List Row) (file : List Row) : List Row :=
  let n := input.filter mask
  if n.isEmpty then file else upsert file n

/-! ### Lemmas about keep-first dedup -/

theorem dedupByKeyAux_keys_nodup (key : α → String) :
    ∀ (l : List α) (seen : List String),
      ((dedupByKeyAux key seen l).map key).Nodup ∧
      ∀ k ∈ (dedupByKeyAux key seen l).map key, k ∉ seen := by
  intro l
  induction l with
  | nil => intro seen; simp [dedupByKeyAux]
  | cons r rs ih =>
    intro seen
    by_cases h : key r ∈ seen
    · simp only [dedupByKeyAux, if_pos h]
      exact ih seen
    · simp only [dedupByKeyAux, if_neg h]
      have ih' := ih (key r :: seen)
      constructor
      · simp only [List.map_cons, List.nodup_cons]
        refine ⟨?_, ih'.1⟩
        intro hmem
        have := ih'.2 (key r) hmem
        exact this (List.mem_cons_self _ _)
      · intro k hk
        simp only [List.map_cons, List.mem_cons] at hk
        rcases hk with hk | hk
        · subst hk; exact h
        · have := ih'.2 k hk
          intro hc
          exact this (List.mem_cons_of_mem _ hc)

theorem dedupByKeyAux_find? (key : α → String) (k : String) :
    ∀ (l : List α) (seen : List String), k ∉ seen →
      (dedupByKeyAux key seen l).find? (fun r => key r == k) =
        l.find? (fun r => key r == k) := by
  intro l
  induction l with
  | nil => intro seen _; simp [dedupByKeyAux]
  | cons r rs ih =>
    intro seen hs
    by_cases h : key r ∈ seen
    · have hne : (key r == k) = false := by
        apply beq_eq_false_iff_ne.mpr
        intro hkk
        exact hs (hkk ▸ h)
      simp only [dedupByKeyAux, if_pos h, List.find?_cons, hne]
      exact ih seen hs
    · simp only [dedupByKeyAux, if_neg h, List.find?_cons]
      cases hb : (key r == k) with
      | true => rfl
      | false =>
        apply ih
        intro hc
        rcases List.mem_cons.mp hc with hc | hc
        · rw [hc] at hb
          simp at hb
        · exact hs hc

theorem upsert_keys_nodup (existing new : List Row) :
    (keysOf (upsert existing new)).Nodup := by
  have := (dedupByKeyAux_keys_nodup (fun r : Row => r.paper) (existing ++ new) []).1
  simpa [keysOf, upsert, dedupByKey] using this

theorem upsert_find?_eq (existing new : List Row) (k : String) :
    (upsert existing new).find? (fun r => r.paper == k) =
      (existing ++ new).find? (fun r => r.paper == k) :=
  dedupByKeyAux_find? (fun r : Row => r.paper) k (existing ++ new) []
    (List.not_mem_nil k)

theorem dedupByKeyAux_mem_keys (key : α → String) (k : String) :
    ∀ (l : List α) (seen : List String), k ∉ seen →
      (k ∈ (dedupByKeyAux key seen l).map key ↔ k ∈ l.map key) := by
  intro l
  induction l with
  | nil => intro seen _; simp [dedupByKeyAux]
  | cons r rs ih =>
    intro seen hs
    by_cases h : key r ∈ seen
    · have hne : k ≠ key r := fun hkk => hs (hkk ▸ h)
      simp only [dedupByKeyAux, if_pos h, List.map_cons, List.mem_cons]
      rw [ih seen hs]
      constructor
      · exact Or.inr
      · rintro (hk | hk)
        · exact absurd hk hne
        · exact hk
    · simp only [dedupByKeyAux, if_neg h, List.map_cons, List.mem_cons]
      by_cases hkk : k = key r
      · simp [hkk]
      · have : k ∉ key r :: seen := by
          intro hc
          rcases List.mem_cons.mp hc with hc | hc
          · exact hkk hc
          · exact hs hc
        rw [ih (key r :: seen) this]

theorem dedupByKeyAux_all_seen (key : α → String) :
    ∀ (l : List α) (seen : List String), (∀ y ∈ l, key y ∈ seen) →
      dedupByKeyAux key seen l = [] := by
  intro l
  induction l with
  | nil => intro seen _; simp [dedupByKeyAux]
  | cons r rs ih =>
    intro seen hall
    have h : key r ∈ seen := hall r (List.mem_cons_self _ _)
    simp only [dedupByKeyAux, if_pos h]
    exact ih seen (fun y hy => hall y (List.mem_cons_of_mem _ hy))

theorem dedupByKeyAux_append_absorb (key : α → String) :
    ∀ (xs : List α) (seen : List String) (ys : List α),
      (∀ y ∈ ys, key y ∈ seen ∨ key y ∈ xs.map key) →
      dedupByKeyAux key seen (xs ++ ys) = dedupByKeyAux key seen xs := by
  intro xs
  induction xs with
  | nil =>
    intro seen ys hall
    simp only [List.nil_append, dedupByKeyAux]
    apply dedupByKeyAux_all_seen
    intro y hy
    rcases hall y hy with h | h
    · exact h
    · simp at h
  | cons x xs ih =>
    intro seen ys hall
    by_cases h : key x ∈ seen
    · simp only [List.cons_append, dedupByKeyAux, if_pos h]
      apply ih
      intro y hy
      rcases hall y hy with hk | hk
      · exact Or.inl hk
      · simp only [List.map_cons, List.mem_cons] at hk
        rcases hk with hk | hk
        · exact Or.inl (hk ▸ h)
        · exact Or.inr hk
    · simp only [List.cons_append, dedupByKeyAux, if_neg h]
      congr 1
      apply ih
      intro y hy
      rcases hall y hy with hk | hk
      · exact Or.inl (List.mem_cons_of_mem _ hk)
      · simp only [List.map_cons, List.mem_cons] at hk
        rcases hk with hk | hk
        · exact Or.inl (hk ▸ List.mem_cons_self _ _)
        · exact Or.inr hk

theorem dedupByKeyAux_idem (key : α → String) :
    ∀ (l : List α) (seen : List String),
      dedupByKeyAux key seen (dedupByKeyAux key seen l) = dedupByKeyAux key seen l := by
  intro l
  induction l with
  | nil => intro seen; simp [dedupByKeyAux]
  | cons r rs ih =>
    intro seen
    by_cases h : key r ∈ seen
    · simp only [dedupByKeyAux, if_pos h]
      exact ih seen
    · simp only [dedupByKeyAux, if_neg h]
      rw [ih (key r :: seen)]

/-- Merging the same batch of new rows a second time changes nothing. -/
theorem upsert_twice (existing new : List Row) :
    upsert (upsert existing new) new = upsert existing new := by
  unfold upsert dedupByKey
  rw [dedupByKeyAux_append_absorb (fun r : Row => r.paper)
    (dedupByKeyAux (fun r : Row => r.paper) [] (existing ++ new)) [] new ?_]
  · exact dedupByKeyAux_idem (fun r : Row => r.paper) (existing ++ new) []
  · intro y hy
    right
    rw [dedupByKeyAux_mem_keys (fun r : Row => r.paper) y.paper (existing ++ new) []
      (List.not_mem_nil _)]
    simp only [List.map_append, List.mem_append]
    right
    exact List.mem_map_of_mem _ hy

theorem bucketStep_idem (mask : Row → Bool) (input file : List Row) :
    bucketStep mask input (bucketStep mask input file) = bucketStep mask input file := by
  unfold bucketStep
  by_cases h : (input.filter mask).isEmpty
  · simp [h]
  · simp only [h, if_neg, Bool.false_eq_true, not_false_iff, if_false]
    exact upsert_twice file (input.filter mask)

theorem find?_append_of_found (l m : List Row) (k : String)
    (h : ∃ r ∈ l, r.paper = k) :
    (l ++ m).find? (fun r => r.paper == k) = l.find? (fun r => r.paper == k) := by
  induction l with
  | nil => rcases h with ⟨r, hr, _⟩; exact absurd hr (List.not_mem_nil r)
  | cons a l ih =>
    simp only [List.cons_append, List.find?_cons]
    cases hb : (a.paper == k) with
    | true => rfl
    | false =>
      apply ih
      rcases h with ⟨r, hr, hk⟩
      rcases List.mem_cons.mp hr with hra | hrl
      · exfalso
        subst hra
        rw [hk] at hb
        simp at hb
      · exact ⟨r, hrl, hk⟩

/-! ## `categorize_url` (utils.py)

The regex engine behind `re.match(pattern, url)` is abstracted as a
total boolean matcher `m` over the configured patterns; the
known-domains rule `re.match(fr'^\x7bre.escape(domain)\x7d', url,
re.IGNORECASE)` is a case-insensitive literal match at the start of the
url and is embedded as `ciStartsWith`. -/

def categorize_url (m : π → String → Bool) (url : String)
    (url_patterns : List π) (existing_domains : List String) : String :=
  if strContains url "twitter.com" && strContains url "/status/" then
    "Twitter thread"
  else if url_patterns.any (fun p => m p url) then
    "article"
  else if existing_domains.any (fun d => ciStartsWith url d) then
    "article"
  else
    "website"

/-! ## Bucket masks (second `parse_and_categorize_links`, utils.py)

`df['paper'].str.contains(pat, case=False)` uses `pat` as a regex with
case folding.  The patterns appearing in the code are literals except
for `.` (any character) and the alternation `'arxiv|ssrn|iacr'`, so the
embedding provides a dot-wildcard substring search and expands the
alternation into a disjunction. -/

def dotSubAt : List Char → List Char → Bool
  | [], _ => true
  | _ :: _, [] => false
  | p :: ps, c :: cs => (p == '.' || p == c) && dotSubAt ps cs

def hasDotSub (pat : List Char) : List Char → Bool
  | [] => dotSubAt pat []
  | h :: t => dotSubAt pat (h :: t) || hasDotSub pat t

/-- `str.contains(pat, case=False)` for the regex-literal patterns used
by the code ('.' matches any character). -/
def containsPat (s pat : String) : Bool :=
  hasDotSub (lowerL pat) (lowerL s)

def research_websites : List String :=
  ["arxiv", "ssrn", "iacr", "pubmed", "ieeexplore", "springer",
   "sciencedirect", "dl.acm", "jstor", "nature", "researchgate",
   "scholar.google", "semanticscholar"]

def pdf_mask (url : String) : Bool :=
  containsPat url ".pdf" &&
    !(containsPat url "arxiv" || containsPat url "ssrn" || containsPat url "iacr")

def arxiv_mask (url : String) : Bool := containsPat url "arxiv"

def ssrn_mask (url : String) : Bool := containsPat url "ssrn"

def iacr_mask (url : String) : Bool := containsPat url "iacr"

def youtube_mask (url : String) : Bool :=
  subAt "https://www.youtube.com/watch".toList url.toList ||
    subAt "https://youtu.be/".toList url.toList

/-- The bucket files a raw link row is written to by the partition step
(the files fed from `pdf_df`, `youtube_df` and the per-research-site
frames; `arxiv_df`/`ssrn_df`/`iacr_df` use the same masks as the
corresponding `research_masks` entries and target the same files). -/
def paperBucketsOf (url : String) : List String :=
  (if pdf_mask url then ["papers.csv"] else []) ++
  (if youtube_mask url then ["youtube_videos.csv"] else []) ++
  (research_websites.filter (fun s => containsPat url s)).map
    (fun s => s ++ "_papers.csv")

/-! ## Domain allow-list side effect (first `parse_and_categorize_links`, utils.py)

State is the pair (allow-list file lines, in-memory `domains` list);
`add_domain_to_file` appends a line to the file. -/

structure ParsedUrl where
  scheme : String
  netloc : String
  path : String
deriving DecidableEq, Repr

def add_domain_to_file (fileLines : List String) (domain : String) : List String :=
  fileLines ++ [domain]

/-- One loop iteration over an input row: the dedup guard compares
`domain` (scheme + netloc only) with the stored entries, while the value
appended is `final_domain` (domain + first two path segments). -/
def processInsightsRow (rws : List String)
    (st : List String × List String) (u : ParsedUrl) : List String × List String :=
  let domain := u.scheme ++ "://" ++ u.netloc
  if domain ∉ rws ∧ domain ∉ st.2 ∧
      subAt "/insights/research/".toList u.path.toList then
    let sub_path := String.mk (joinSlash ((splitSlash u.path.toList).take 3))
    let final_domain := domain ++ sub_path
    (add_domain_to_file st.1 final_domain, st.2 ++ [final_domain])
  else
    st

/-- One categorization pass: read the allow-list file into `domains`,
then iterate over the input rows; returns the file contents afterwards. -/
def categorizationPass (rws : List String) (fileLines : List String)
    (urls : List ParsedUrl) : List String :=
  (urls.foldl (processInsightsRow rws) (fileLines, fileLines)).1

/-! ## Detail Fetchers (get_research_paper_details.py)

Python exceptions are embedded as `Except PyExn`; the page obtained
from the network/DOM collaborators (`requests`, `BeautifulSoup`,
`quickSoup`) is abstracted as a structure holding the outcome of each
lookup the fetcher performs.  A CSS `select_one`/`find` miss is `none`,
and calling `.get_text()` on it raises `AttributeError`. -/

inductive PyExn where
  | requestException
  | attributeError
  | indexError
  | valueError
deriving DecidableEq, Repr

def monthFull : List String :=
  ["January", "February", "March", "April", "May", "June", "July",
   "August", "September", "October", "November", "December"]

def monthAbbr : List String :=
  ["Jan", "Feb", "Mar", "Apr", "May", "Jun", "Jul", "Aug", "Sep",
   "Oct", "Nov", "Dec"]

def digitsToNat? (l : List Char) : Option Nat :=
  if l ≠ [] ∧ l.all Char.isDigit then
    some (l.foldl (fun acc c => acc * 10 + (c.toNat - 48)) 0)
  else none

/-- Modelled from the spec: `datetime.strptime(s, '%d <month> %Y')`
(Python standard library, not part of this repository): day, month name
(full or abbreviated according to `monthNames`, case-insensitive),
year, separated by single spaces; any other shape fails (`ValueError`).
Returns (year, month, day). -/
def strptimeDMY (monthNames : List String) (s : String) :
    Option (Nat × Nat × Nat) :=
  match splitOnChar ' ' s.toList with
  | [d, m, y] => do
    let dn ← digitsToNat? d
    let mi ← monthNames.findIdx? (fun n => lowerL n == m.map lowerChar)
    let yn ← digitsToNat? y
    if 1 ≤ dn ∧ dn ≤ 31 then some (yn, mi + 1, dn) else none
  | _ => none

def pad2 (n : Nat) : String :=
  if n < 10 then "0" ++ toString n else toString n

/-- `date_obj.strftime('%Y-%m-%d')`. -/
def formatYmd : Nat × Nat × Nat → String
  | (y, m, d) => toString y ++ "-" ++ pad2 m ++ "-" ++ pad2 d

structure PaperDetails where
  title : String
  authors : String
  pdf_link : String
  topics : String
  release_date : String
deriving DecidableEq, Repr

/-- The SSRN page as observed by `get_paper_details_from_ssrn`:
`text` is the page text from `quickSoup` (`none` when the fetch failed
and `quickSoup` returned `None`), `h1` the result of
`article.find('h1')`. -/
structure SsrnPage where
  text : Option String
  h1 : Option String
deriving Repr

/-- `dict.fromkeys(input_list).keys()`: order-preserving dedup. -/
def ordered_set_from_list (l : List String) : List String :=
  dedupByKey (fun s => s) l

/-- The `try` block of `get_paper_details_from_ssrn`. -/
def ssrnBody (page : SsrnPage) (url : String) :
    Except PyExn (Option PaperDetails) :=
  match page.text with
  | none => Except.error PyExn.attributeError
  | some t =>
    if strContains t "The abstract you requested was not found" then
      Except.ok none
    else
      match page.h1 with
      | none => Except.error PyExn.attributeError
      | some h =>
        let title := (h.replace "\n" "").trim
        let test_list := ordered_set_from_list
          ((splitOnChar '\n' t.toList).map String.mk)
        match test_list.get? 1 with
        | none => Except.error PyExn.indexError
        | some second =>
          let authors :=
            (((((second.replace title "").replace " :: SSRN" "").replace
              " by " "").replace ", " ":").trim).replace ":" ", "
          let revised := (test_list.filter
              (fun line => strContains line "Last revised: ")).map
            (fun line => line.replace "Last revised: " "")
          let dlist := if revised.isEmpty then
              (test_list.filter (fun line => strContains line "Posted: ")).map
                (fun line => line.replace "Posted: " "")
            else revised
          match dlist.head? with
          | none => Except.error PyExn.indexError
          | some date0 =>
            match strptimeDMY monthAbbr date0.trim with
            | none => Except.error PyExn.valueError
            | some parsed =>
              Except.ok (some
                { title := title, authors := authors, pdf_link := url,
                  topics := "SSRN", release_date := formatYmd parsed })

/-- `get_paper_details_from_ssrn`: the whole body runs inside
`try ... except Exception`, whose handler logs and returns `None`. -/
def get_paper_details_from_ssrn (page : SsrnPage) (url : String) :
    Except PyExn (Option PaperDetails) :=
  match ssrnBody page url with
  | Except.ok v => Except.ok v
  | Except.error _ => Except.ok none

/-- The DL-ACM page as observed by `get_paper_details_from_dl_acm`:
`requestOk` is whether `requests.get` + `raise_for_status` succeeded,
`titleSel` the `.citation__title` node text, `authorItems` for each
`li.loa__item` the text of its `img.author-picture` (if any), `dateSel`
the `.CitationCoverDate` node text. -/
structure DlAcmPage where
  requestOk : Bool
  titleSel : Option String
  authorItems : List (Option String)
  dateSel : Option String
deriving Repr

structure DlAcmDetails where
  title : String
  authors : List String
  pdf_link : String
  topics : String
  release_date : String
deriving DecidableEq, Repr

/-- The `try` block of `get_paper_details_from_dl_acm`. -/
def dlAcmBody (page : DlAcmPage) (url : String) :
    Except PyExn DlAcmDetails :=
  if page.requestOk then
    match page.titleSel with
    | none => Except.error PyExn.attributeError
    | some title =>
      let authors := (page.authorItems.filterMap id).filter (fun a => a ≠ "")
      match page.dateSel with
      | none => Except.error PyExn.attributeError
      | some dateStr =>
        match strptimeDMY monthFull dateStr with
        | none => Except.error PyExn.valueError
        | some parsed =>
          Except.ok { title := title, authors := authors, pdf_link := url,
                      topics := "dl-acm", release_date := formatYmd parsed }
  else Except.error PyExn.requestException

/-- `get_paper_details_from_dl_acm`: only
`requests.exceptions.RequestException` and `AttributeError` are handled
(both return `None`); any other exception propagates to the caller. -/
def get_paper_details_from_dl_acm (page : DlAcmPage) (url : String) :
    Except PyExn (Option DlAcmDetails) :=
  match dlAcmBody page url with
  | Except.ok v => Except.ok (some v)
  | Except.error PyExn.requestException => Except.ok none
  | Except.error PyExn.attributeError => Except.ok none
  | Except.error e => Except.error e

/-! ## Fan-out Runner (get_research_paper_details.py)

`download_and_save_unique_paper` is the per-row worker; the network
collaborators are abstracted into the task: `fetch` is the outcome of
`parsing_method(link)` (an `Except.error` means the parsing method
raised inside the worker) and `pdfOk` whether the PDF download at the
end of the worker succeeds. -/

structure CsvRow where
  title : String
  authors : String
  pdf_link : String
  topics : String
  release_date : String
  referrer : String
deriving DecidableEq, Repr

structure WorkerOutcome where
  errorLogs : Nat
  written : List CsvRow
  exn : Option PyExn
deriving DecidableEq, Repr

/-- `download_and_save_unique_paper`: sentinel `None` from the fetcher
logs one error line and writes nothing; a known title is skipped
(info log only); otherwise the row is appended to the CSV and then the
PDF is downloaded, whose `raise_for_status` raises after the row has
already been written. -/
def download_and_save_unique_paper (existing_papers : List String)
    (referrer : String) (fetch : Except PyExn (Option PaperDetails))
    (pdfOk : Bool) : WorkerOutcome :=
  match fetch with
  | Except.error e => ⟨0, [], some e⟩
  | Except.ok none => ⟨1, [], none⟩
  | Except.ok (some d) =>
    if d.title ∈ existing_papers then ⟨0, [], none⟩
    else
      let row : CsvRow :=
        ⟨d.title, d.authors, d.pdf_link, d.topics, d.release_date, referrer⟩
      if pdfOk then ⟨0, [row], none⟩
      else ⟨0, [row], some PyExn.requestException⟩

structure FetchTask where
  link : String
  referrer : String
  fetch : Except PyExn (Option PaperDetails)
  pdfOk : Bool

/-- `download_and_save_paper`: the existing titles are read from the
CSV once, before the pool starts, and the same snapshot list is passed
to every task; the iterator returned by `executor.map` is discarded, so an exception
raised by one worker is captured in its future and the remaining tasks
still run. -/
def download_and_save_paper (existing_papers : List String)
    (tasks : List FetchTask) : List WorkerOutcome :=
  tasks.map (fun t =>
    download_and_save_unique_paper existing_papers t.referrer t.fetch t.pdfOk)

/-- The rows appended to the bucket CSV by a whole batch. -/
def appendedRows (outs : List WorkerOutcome) : List CsvRow :=
  (outs.map (fun o => o.written)).flatten

/-! ## Article content dispatch (get_article_content.py) -/

structure Content where
  content : Option String
  release_date : Option String
  authors : Option String
  author_urls : Option String
  author_firm_name : Option String
  author_firm_url : Option String
deriving DecidableEq, Repr

/-- The shared all-`None` sentinel `empty_content`. -/
def empty_content : Content :=
  ⟨none, none, none, none, none, none⟩

/-- `fetch_content`: walk the URL-pattern dispatch table; on the first
pattern contained in the url with a configured fetcher, call it;
otherwise fall through, and return `empty_content` when no pattern
matched. -/
def fetch_content (url_patterns : List (String × Option (String → Content)))
    (url : String) : Content :=
  match url_patterns with
  | [] => empty_content
  | (pat, f) :: rest =>
    if strContains url pat then
      match f with
      | some fetch_function => fetch_function url
      | none => fetch_content rest url
    else fetch_content rest url

/-- The discourse page as observed by
`fetch_discourse_content_from_url`: `response` is the `safe_request`
result (`none` on failure), `container` the elements selected by the
content CSS selector already rendered to markdown by the
`html_to_markdown`/`sanitize_mojibake` collaborators, `metaPublished`
the `article:published_time` meta content, `creatorHref` the
`.creator a` href. -/
structure DiscoursePage where
  response : Option String
  container : Option (List String)
  metaPublished : Option String
  creatorHref : Option String
deriving Repr

/-- `fetch_discourse_content_from_url`: a failed request or a missing
content container returns the shared `empty_content` sentinel. -/
def fetch_discourse_content_from_url (page : DiscoursePage) : Content :=
  match page.response with
  | none => empty_content
  | some _ =>
    match page.container with
    | none => empty_content
    | some elems =>
      { content := some (String.join elems)
        release_date := page.metaPublished.map
          (fun c => String.mk ((splitOnChar 'T' c.toList).headD []))
        authors := page.creatorHref
        author_urls := none
        author_firm_name := none
        author_firm_url := none }

/-! ## Claims -/

set_option maxRecDepth 10000

/-- C1: the merge step concatenates existing rows before new rows and
drops duplicate rows by the `paper` key keeping the first occurrence,
so on a key collision the existing row is retained (the lookup of any
key present in the existing rows is unchanged by the merge) and the
resulting file contains no two rows with the same key value. -/
theorem C1_upsert_dedup_existing_wins (existing new : List Row) :
    (keysOf (upsert existing new)).Nodup ∧
    ∀ k, (∃ r ∈ existing, r.paper = k) →
      (upsert existing new).find? (fun r => r.paper == k) =
        existing.find? (fun r => r.paper == k) := by
  refine ⟨upsert_keys_nodup existing new, ?_⟩
  intro k hk
  rw [upsert_find?_eq, find?_append_of_found existing new k hk]

/-- Witness for C1 at a concrete collision: existing row `https://a`
wins over the new row with the same key. -/
theorem C1_upsert_dedup_existing_wins_witness :
    (keysOf (upsert [⟨"https://a", "r1"⟩]
      [⟨"https://a", "r2"⟩, ⟨"https://b", "r3"⟩])).Nodup ∧
    (upsert [⟨"https://a", "r1"⟩]
        [⟨"https://a", "r2"⟩, ⟨"https://b", "r3"⟩]).find?
        (fun r => r.paper == "https://a") =
      [⟨"https://a", "r1"⟩].find? (fun r => r.paper == "https://a") :=
  ⟨(C1_upsert_dedup_existing_wins [⟨"https://a", "r1"⟩]
      [⟨"https://a", "r2"⟩, ⟨"https://b", "r3"⟩]).1,
   (C1_upsert_dedup_existing_wins [⟨"https://a", "r1"⟩]
      [⟨"https://a", "r2"⟩, ⟨"https://b", "r3"⟩]).2 "https://a"
     ⟨⟨"https://a", "r1"⟩, by simp, rfl⟩⟩

/-- C2: `categorize_url` applies its rules in order with first match
winning: a Twitter status URL yields the Twitter-thread bucket
regardless of the pattern table and known domains; otherwise a url
matching any configured pattern yields "article"; otherwise a url whose
start matches a known domain case-insensitively yields "article";
otherwise "website". -/
theorem C2_categorize_rule_order {π : Type} (m : π → String → Bool)
    (url : String) (url_patterns : List π) (existing_domains : List String) :
    ((strContains url "twitter.com" && strContains url "/status/") = true →
      categorize_url m url url_patterns existing_domains = "Twitter thread") ∧
    ((strContains url "twitter.com" && strContains url "/status/") = false →
      url_patterns.any (fun p => m p url) = true →
      categorize_url m url url_patterns existing_domains = "article") ∧
    ((strContains url "twitter.com" && strContains url "/status/") = false →
      url_patterns.any (fun p => m p url) = false →
      existing_domains.any (fun d => ciStartsWith url d) = true →
      categorize_url m url url_patterns existing_domains = "article") ∧
    ((strContains url "twitter.com" && strContains url "/status/") = false →
      url_patterns.any (fun p => m p url) = false →
      existing_domains.any (fun d => ciStartsWith url d) = false →
      categorize_url m url url_patterns existing_domains = "website") := by
  refine ⟨?_, ?_, ?_, ?_⟩
  · intro h1; simp [categorize_url, h1]
  · intro h1 h2; simp [categorize_url, h1, h2]
  · intro h1 h2 h3; simp [categorize_url, h1, h2, h3]
  · intro h1 h2 h3; simp [categorize_url, h1, h2, h3]

/-- Witness for C2: a concrete Twitter status URL is categorized as a
Twitter thread even with non-empty tables, and a URL matching nothing
falls through to "website". -/
theorem C2_categorize_rule_order_witness :
    categorize_url (fun (p : String) u => p == u)
      "https://twitter.com/bertcmiller/status/123"
      ["https://a.com"] ["https://b.com"] = "Twitter thread" ∧
    categorize_url (fun (_ : String) _ => false)
      "https://example.com/post" [] [] = "website" :=
  ⟨(C2_categorize_rule_order (fun (p : String) u => p == u)
      "https://twitter.com/bertcmiller/status/123"
      ["https://a.com"] ["https://b.com"]).1 (by decide),
   (C2_categorize_rule_order (fun (_ : String) _ => false)
      "https://example.com/post" [] []).2.2.2 (by decide) (by decide) (by decide)⟩

/-- C3: for every bucket mask, input link set and pre-existing bucket
file, running the categorize-then-upsert step twice with the same input
produces a bucket file with the same row count as running it once. -/
theorem C3_pipeline_idempotent_rowcount (mask : Row → Bool)
    (input file : List Row) :
    (bucketStep mask input (bucketStep mask input file)).length =
      (bucketStep mask input file).length := by
  rw [bucketStep_idem]

/-- C4 (code bug): the dedup guard of the allow-list side effect
compares `domain` (scheme + netloc only) against the stored lines, but
the value appended is `final_domain` (domain + first two path
segments), so the guard never matches a previously appended line and a
second categorization pass over the same input appends the same line
again, leaving the allow-list file with duplicate lines. -/
theorem C4_allowlist_duplicate_after_repeat :
    categorizationPass []
        (categorizationPass [] []
          [⟨"https", "example.com", "/insights/research/foo"⟩])
        [⟨"https", "example.com", "/insights/research/foo"⟩] =
      ["https://example.com/insights/research",
       "https://example.com/insights/research"] ∧
    ¬ (categorizationPass []
        (categorizationPass [] []
          [⟨"https", "example.com", "/insights/research/foo"⟩])
        [⟨"https", "example.com", "/insights/research/foo"⟩]).Nodup := by
  constructor
  · rfl
  · decide

/-- C5 counterexample: the partition masks are not mutually exclusive —
a PDF link hosted on the research site "nature" satisfies both the PDF
mask and the nature research-site mask, so the same input row is
written to both `papers.csv` and `nature_papers.csv`. -/
theorem C5_counterexample_row_in_two_buckets :
    paperBucketsOf "https://www.nature.com/articles/mev.pdf" =
      ["papers.csv", "nature_papers.csv"] ∧
    2 ≤ (paperBucketsOf "https://www.nature.com/articles/mev.pdf").length := by
  constructor
  · rfl
  · decide

/-- C5 amended: the bucket masks are independent substring tests with
no precedence, so a row can be written to more than one bucket; the
only exclusion the code guarantees is that the PDF "papers" bucket
excludes urls containing "arxiv"/"ssrn"/"iacr", making it disjoint from
those three paper buckets. -/
theorem C5_pdf_excludes_known_paper_hosts (url : String)
    (h : pdf_mask url = true) :
    arxiv_mask url = false ∧ ssrn_mask url = false ∧ iacr_mask url = false := by
  simp only [pdf_mask, Bool.and_eq_true, Bool.not_eq_true',
    Bool.or_eq_false_iff] at h
  exact ⟨h.2.1.1, h.2.1.2, h.2.2⟩

/-- Witness for C5 amended at a concrete PDF url. -/
theorem C5_pdf_excludes_known_paper_hosts_witness :
    arxiv_mask "https://example.com/paper.pdf" = false ∧
    ssrn_mask "https://example.com/paper.pdf" = false ∧
    iacr_mask "https://example.com/paper.pdf" = false :=
  C5_pdf_excludes_known_paper_hosts "https://example.com/paper.pdf" (by decide)

theorem dlAcmBody_error_cases (page : DlAcmPage) (url : String) (e : PyExn)
    (h : dlAcmBody page url = Except.error e) :
    e = PyExn.requestException ∨ e = PyExn.attributeError ∨
      e = PyExn.valueError := by
  obtain ⟨rOk, tSel, aItems, dSel⟩ := page
  unfold dlAcmBody at h
  cases rOk with
  | false =>
    rw [if_neg (by simp)] at h
    cases h
    exact Or.inl rfl
  | true =>
    rw [if_pos rfl] at h
    cases tSel with
    | none => cases h; exact Or.inr (Or.inl rfl)
    | some title =>
      cases dSel with
      | none => cases h; exact Or.inr (Or.inl rfl)
      | some dateStr =>
        simp only at h
        cases hp : strptimeDMY monthFull dateStr with
        | none => rw [hp] at h; cases h; exact Or.inr (Or.inr rfl)
        | some parsed => rw [hp] at h; cases h

theorem dlAcm_error_is_valueError (page : DlAcmPage) (url : String) (e : PyExn)
    (h : get_paper_details_from_dl_acm page url = Except.error e) :
    e = PyExn.valueError := by
  unfold get_paper_details_from_dl_acm at h
  cases hb : dlAcmBody page url with
  | ok v => rw [hb] at h; simp at h
  | error f =>
    rw [hb] at h
    have hf := dlAcmBody_error_cases page url f hb
    cases f with
    | requestException => simp at h
    | attributeError => simp at h
    | indexError =>
      rcases hf with hf | hf | hf <;> simp at hf
    | valueError =>
      cases h
      rfl

/-- C6 counterexample: `get_paper_details_from_dl_acm` catches only
`RequestException` and `AttributeError`; a page whose cover-date string
does not parse raises `ValueError` from `datetime.strptime` past the
fetcher boundary instead of returning the failure sentinel. -/
theorem C6_counterexample_dlacm_date_raises :
    get_paper_details_from_dl_acm
        ⟨true, some "Flash Boys 2.0", [], some "not a date"⟩
        "https://dl.acm.org/doi/10.1145/1" =
      Except.error PyExn.valueError := by
  rfl

/-- C6 amended: `get_paper_details_from_ssrn` (whose body is wrapped in
a catch-all handler) never raises past its boundary, for every page;
`get_paper_details_from_dl_acm` converts network and DOM-parse failures
to the sentinel, but the only exception it can propagate is the
`ValueError` of a malformed date string. -/
theorem C6_fetcher_boundary (sp : SsrnPage) (su : String)
    (dp : DlAcmPage) (du : String) :
    (∃ v, get_paper_details_from_ssrn sp su = Except.ok v) ∧
    (∀ e, get_paper_details_from_dl_acm dp du = Except.error e →
      e = PyExn.valueError) := by
  constructor
  · unfold get_paper_details_from_ssrn
    cases ssrnBody sp su with
    | ok v => exact ⟨v, rfl⟩
    | error f => exact ⟨none, rfl⟩
  · intro e h
    exact dlAcm_error_is_valueError dp du e h

/-- Witness for C6 amended: a failed SSRN fetch still returns `ok`, and
the dl-acm propagation hypothesis is discharged at a concrete page with
an unparsable date. -/
theorem C6_fetcher_boundary_witness :
    (∃ v, get_paper_details_from_ssrn ⟨none, none⟩
      "https://ssrn.com/abstract=1" = Except.ok v) ∧
    PyExn.valueError = PyExn.valueError :=
  ⟨(C6_fetcher_boundary ⟨none, none⟩ "https://ssrn.com/abstract=1"
      ⟨true, some "T", [], some "garbage"⟩ "https://dl.acm.org/doi/x").1,
   (C6_fetcher_boundary ⟨none, none⟩ "https://ssrn.com/abstract=1"
      ⟨true, some "T", [], some "garbage"⟩ "https://dl.acm.org/doi/x").2
     PyExn.valueError (by rfl)⟩

/-- C7 counterexample: a worker whose fetch succeeds but whose PDF
download fails raises after the CSV row has already been written: the
row IS written, zero error lines are logged, and the exception is
swallowed by the discarded `executor.map` iterator — contradicting
"exactly one error line is logged and no row is written". -/
theorem C7_counterexample_raise_after_write :
    (download_and_save_unique_paper [] "ref"
        (Except.ok (some ⟨"T", "A", "https://x/p.pdf", "SSRN", "2023-01-01"⟩))
        false).written ≠ [] ∧
    (download_and_save_unique_paper [] "ref"
        (Except.ok (some ⟨"T", "A", "https://x/p.pdf", "SSRN", "2023-01-01"⟩))
        false).errorLogs = 0 ∧
    (download_and_save_unique_paper [] "ref"
        (Except.ok (some ⟨"T", "A", "https://x/p.pdf", "SSRN", "2023-01-01"⟩))
        false).exn = some PyExn.requestException := by
  refine ⟨by decide, rfl, rfl⟩

/-- C7 amended: a single row's failure never aborts the batch (every
task is processed), and a fetcher returning the empty sentinel logs
exactly one error line and writes no row; a worker that raises is
silently swallowed by the pool, and may have written its row already
when the raise came from the PDF download. -/
theorem C7_batch_isolation (existing : List String) (tasks : List FetchTask)
    (referrer : String) (pdfOk : Bool) :
    (download_and_save_paper existing tasks).length = tasks.length ∧
    download_and_save_unique_paper existing referrer (Except.ok none) pdfOk =
      ⟨1, [], none⟩ :=
  ⟨by simp [download_and_save_paper], rfl⟩

theorem worker_written_not_existing (existing : List String)
    (referrer : String) (fetch : Except PyExn (Option PaperDetails))
    (pdfOk : Bool) :
    ∀ r ∈ (download_and_save_unique_paper existing referrer fetch pdfOk).written,
      r.title ∉ existing := by
  intro r hr
  cases fetch with
  | error e => simp [download_and_save_unique_paper] at hr
  | ok o =>
    cases o with
    | none => simp [download_and_save_unique_paper] at hr
    | some d =>
      by_cases hmem : d.title ∈ existing
      · simp [download_and_save_unique_paper, hmem] at hr
      · cases pdfOk <;>
          simp [download_and_save_unique_paper, hmem] at hr <;>
          (subst hr; simpa using hmem)

theorem worker_written_empty_of_existing (existing : List String)
    (referrer : String) (fetch : Except PyExn (Option PaperDetails))
    (pdfOk : Bool)
    (h : ∀ d, fetch = Except.ok (some d) → d.title ∈ existing) :
    (download_and_save_unique_paper existing referrer fetch pdfOk).written = [] := by
  cases fetch with
  | error e => rfl
  | ok o =>
    cases o with
    | none => rfl
    | some d =>
      have hd := h d rfl
      simp [download_and_save_unique_paper, hd]

theorem appendedRows_cons (existing : List String) (t : FetchTask)
    (ts : List FetchTask) :
    appendedRows (download_and_save_paper existing (t :: ts)) =
      (download_and_save_unique_paper existing t.referrer t.fetch t.pdfOk).written ++
        appendedRows (download_and_save_paper existing ts) := by
  simp [appendedRows, download_and_save_paper]

/-- C8 counterexample: the existing-title list is a snapshot taken once
per batch, so a batch containing the same key twice appends two rows
with the same title — the second append's key already existed in the
file. -/
theorem C8_counterexample_duplicate_in_batch :
    ¬ ((appendedRows (download_and_save_paper []
        [⟨"https://ssrn.com/abstract=2", "r",
          Except.ok (some ⟨"T", "A", "L", "SSRN", "2023-01-01"⟩), true⟩,
         ⟨"https://ssrn.com/abstract=2", "r",
          Except.ok (some ⟨"T", "A", "L", "SSRN", "2023-01-01"⟩), true⟩])).map
        (fun r => r.title)).Nodup := by
  decide

/-- C8 amended: every appended row's title was absent from the file's
start-of-batch snapshot (so a re-fetch run over links whose titles are
all already present appends nothing), but uniqueness within a batch is
only guaranteed when the batch itself carries no repeated keys. -/
theorem C8_snapshot_dedup (existing : List String) (tasks : List FetchTask) :
    (∀ r ∈ appendedRows (download_and_save_paper existing tasks),
      r.title ∉ existing) ∧
    ((∀ t ∈ tasks, ∀ d, t.fetch = Except.ok (some d) → d.title ∈ existing) →
      appendedRows (download_and_save_paper existing tasks) = []) := by
  constructor
  · induction tasks with
    | nil => intro r hr; simp [appendedRows, download_and_save_paper] at hr
    | cons t ts ih =>
      intro r hr
      rw [appendedRows_cons] at hr
      rcases List.mem_append.mp hr with hr | hr
      · exact worker_written_not_existing existing t.referrer t.fetch t.pdfOk r hr
      · exact ih r hr
  · intro hall
    induction tasks with
    | nil => rfl
    | cons t ts ih =>
      rw [appendedRows_cons,
        worker_written_empty_of_existing existing t.referrer t.fetch t.pdfOk
          (fun d hd => hall t (List.mem_cons_self _ _) d hd)]
      rw [List.nil_append]
      exact ih (fun u hu d hd => hall u (List.mem_cons_of_mem _ hu) d hd)

/-- Witness for C8 amended: a freshly appended row's title is not in
the empty snapshot, and a batch whose only fetched title is already in
the file appends nothing. -/
theorem C8_snapshot_dedup_witness :
    ((⟨"T", "A", "L", "SSRN", "2023-01-01", "r"⟩ : CsvRow).title ∉
      ([] : List String)) ∧
    appendedRows (download_and_save_paper ["T"]
      [⟨"u", "r", Except.ok (some ⟨"T", "A", "L", "SSRN", "2023-01-01"⟩),
        true⟩]) = [] :=
  ⟨(C8_snapshot_dedup []
      [⟨"u", "r", Except.ok (some ⟨"T", "A", "L", "SSRN", "2023-01-01"⟩),
        true⟩]).1
      ⟨"T", "A", "L", "SSRN", "2023-01-01", "r"⟩ (by decide),
   (C8_snapshot_dedup ["T"]
      [⟨"u", "r", Except.ok (some ⟨"T", "A", "L", "SSRN", "2023-01-01"⟩),
        true⟩]).2
      (by
        intro t ht d hd
        simp only [List.mem_singleton] at ht
        subst ht
        simp only at hd
        injection hd with hd'
        injection hd' with hd''
        subst hd''
        decide)⟩

/-- C9: `categorize_url` is total on string inputs — for every url it
returns one of the three bucket labels (it cannot raise), and any url
matching no rule gets the fallback "website". -/
theorem C9_categorize_total_default {π : Type} (m : π → String → Bool)
    (url : String) (pats : List π) (doms : List String) :
    (categorize_url m url pats doms = "Twitter thread" ∨
     categorize_url m url pats doms = "article" ∨
     categorize_url m url pats doms = "website") ∧
    ((strContains url "twitter.com" && strContains url "/status/") = false →
      pats.any (fun p => m p url) = false →
      doms.any (fun d => ciStartsWith url d) = false →
      categorize_url m url pats doms = "website") := by
  constructor
  · unfold categorize_url
    split
    · exact Or.inl rfl
    · split
      · exact Or.inr (Or.inl rfl)
      · split
        · exact Or.inr (Or.inl rfl)
        · exact Or.inr (Or.inr rfl)
  · intro h1 h2 h3
    simp [categorize_url, h1, h2, h3]

/-- Witness for C9 at a malformed url matching no rule. -/
theorem C9_categorize_total_default_witness :
    categorize_url (fun (_ : String) _ => false) "::not a url::" [] [] =
      "website" :=
  (C9_categorize_total_default (fun (_ : String) _ => false)
    "::not a url::" [] []).2 (by decide) (by decide) (by decide)

/-- C10: for every url matching none of the patterns in the article
dispatch table, `fetch_content` returns the single shared all-`None`
sentinel `empty_content` without raising — the same value a matched
fetcher (here the discourse fetcher on a failed request) returns on
failure, so the caller cannot distinguish an unsupported site from a
failed fetch. -/
theorem C10_unmatched_url_empty_sentinel (url : String)
    (table : List (String × Option (String → Content)))
    (h : ∀ pf ∈ table, strContains url pf.1 = false) :
    fetch_content table url = empty_content ∧
    fetch_content table url =
      fetch_discourse_content_from_url ⟨none, none, none, none⟩ ∧
    empty_content.content = none ∧ empty_content.release_date = none ∧
    empty_content.authors = none ∧ empty_content.author_urls = none ∧
    empty_content.author_firm_name = none ∧
    empty_content.author_firm_url = none := by
  have hmain : fetch_content table url = empty_content := by
    induction table with
    | nil => rfl
    | cons pf rest ih =>
      obtain ⟨pat, f⟩ := pf
      have hp := h (pat, f) (List.mem_cons_self _ _)
      simp only at hp
      simp only [fetch_content, hp, Bool.false_eq_true, if_false]
      exact ih (fun q hq => h q (List.mem_cons_of_mem _ hq))
  refine ⟨hmain, ?_, rfl, rfl, rfl, rfl, rfl, rfl⟩
  rw [hmain]
  rfl

/-- Witness for C10 at a concrete unmatched url and dispatch table. -/
theorem C10_unmatched_url_empty_sentinel_witness :
    fetch_content [("medium.com", none), ("mirror.xyz", none)]
      "https://unknown.example/post" = empty_content :=
  (C10_unmatched_url_empty_sentinel "https://unknown.example/post"
    [("medium.com", none), ("mirror.xyz", none)]
    (by
      intro pf hpf
      simp only [List.mem_cons, List.mem_singleton] at hpf
      rcases hpf with rfl | hpf
      · decide
      · rcases hpf with rfl | hpf
        · decide
        · simp at hpf)).1

end MevFyi
